import Mathlib

/-
Shallow embedding of src/sumread.py (DocOtak/sum-reader), a reader for WOCE
sum files. Python strings are modelled as Lean String, Python floats as Rat,
Python None as Option.none, and each distinct Python exception that read_sum
can raise is one constructor of Err. read_sum is a generator, so rows yielded
before a per-row exception are observable: the embedding returns the list of
rows produced before a row-level exception together with that exception.
-/

deriving instance DecidableEq for Except

namespace SumRead

/-- Exceptions observable from read_sum. invalidSum is InvalidSumError;
nameError models the NameError raised by the statement
raise InvalidSumError("No header seperation line found") from e
because the name e is unbound there (it is only bound inside the
except UnicodeDecodeError handler, which did not run when the decode
succeeded); valueError is the bare ValueError() of the duplicate-header
check; typeError is the TypeError from comparing None with < or >;
keyError is a dict lookup miss; indexError is a list or deque index miss. -/
inductive Err where
  | invalidSum (msg : String)
  | nameError
  | valueError
  | typeError
  | keyError (k : String)
  | indexError
  deriving DecidableEq, Repr

/-- Decoded field values: Python str or Python float (modelled as Rat). -/
inductive Value where
  | str (s : String)
  | num (q : ℚ)
  deriving DecidableEq, Repr

/-- One decoded row: the Python dict row_data, as an insertion-ordered
association list with overwrite-in-place semantics. -/
abbrev Row : Type := List (String × Option Value)

/-- Python whitespace characters recognized by str.strip. -/
def isPySpace (c : Char) : Bool :=
  c == ' ' || c == '\t' || c == '\n' || c == '\r' || c == '\x0b' || c == '\x0c'

/-- Python str.strip(): remove leading and trailing whitespace. -/
def pyStrip (s : String) : String :=
  String.mk (((s.toList.dropWhile isPySpace).reverse.dropWhile isPySpace).reverse)

/-- Python str.upper() restricted to ASCII input. -/
def pyUpper (s : String) : String :=
  String.mk (s.toList.map Char.toUpper)

/-- Python single-space str.join over a list of strings. -/
def pyJoin : List String → String
  | [] => ""
  | [x] => x
  | x :: y :: rest => x ++ " " ++ pyJoin (y :: rest)

/-- Split a character list at each line terminator. Modelled terminators:
LF, CRLF, CR (the exotic control-character terminators of str.splitlines
do not occur in sum files). -/
def splitLinesAux : List Char → List (List Char)
  | [] => [[]]
  | '\r' :: '\n' :: rest => [] :: splitLinesAux rest
  | '\r' :: rest => [] :: splitLinesAux rest
  | '\n' :: rest => [] :: splitLinesAux rest
  | c :: rest =>
      match splitLinesAux rest with
      | [] => [[c]]
      | l :: ls => (c :: l) :: ls

/-- Python str.splitlines(): no trailing empty line for a terminated final
line, and the empty string gives an empty list. -/
def pySplitlines (s : String) : List String :=
  match s.toList with
  | [] => []
  | cs =>
      let parts := splitLinesAux cs
      let parts :=
        if cs.getLast? == some '\n' || cs.getLast? == some '\r' then
          parts.dropLast
        else parts
      parts.map String.mk

/-- Python slice s[a:b] on a string (out-of-range indices truncate). -/
def strSlice (s : String) (a b : Nat) : String :=
  String.mk ((s.toList.drop a).take (b - a))

/-- Helper for strFind: first position at or after pos where pat occurs. -/
def strFindAux (pat : List Char) : List Char → Nat → Option Nat
  | [], pos => if pat.isEmpty then some pos else none
  | c :: rest, pos =>
      if pat.isPrefixOf (c :: rest) then some pos
      else strFindAux pat rest (pos + 1)

/-- Python str.index as an Option: index of the first occurrence of pat in s,
none when absent (the source catches the ValueError and stores None). -/
def strFind (s pat : String) : Option Nat :=
  strFindAux pat.toList s.toList 0

/-- Value of a list of decimal digit characters. -/
def digitsVal (cs : List Char) : ℕ :=
  cs.foldl (fun a c => a * 10 + (c.toNat - 48)) 0

/-- Helper for pyFloat: parse an unsigned decimal literal. -/
def pyFloatCore (cs : List Char) : Option ℚ :=
  let intPart := cs.takeWhile (·.isDigit)
  let rest := cs.drop intPart.length
  match rest with
  | [] => if intPart.isEmpty then none else some (digitsVal intPart)
  | '.' :: frac =>
      if frac.all (·.isDigit) && !(intPart.isEmpty && frac.isEmpty) then
        some ((digitsVal intPart : ℚ) + (digitsVal frac : ℚ) / (10 ^ frac.length))
      else none
  | _ => none

/-- Python float(s) over the decimal forms occurring in sum files: optional
sign, digits, optional fractional part. Exponent, inf and nan forms are not
modelled; none models the ValueError raised on any non-numeric text. -/
def pyFloat (s : String) : Option ℚ :=
  match s.toList with
  | '+' :: cs => pyFloatCore cs
  | '-' :: cs => (pyFloatCore cs).map (fun q => -q)
  | cs => pyFloatCore cs

/-- INVERTED_POSSIBILITIES: the alias table mapping each known raw header
spelling to its canonical field name; none models a KeyError on lookup. -/
def INVERTED_POSSIBILITIES (s : String) : Option String :=
  match s with
  | "EXPOCODE" => some "expocode"
  | "SECT" | "WHP-ID" | "WOCE" => some "woce_sect"
  | "STNNBR" => some "stnnbr"
  | "CASTNO" => some "castno"
  | "PARAMETERS" | "PARAM" | "PARAMETER" | "PARAMS"
  | "PARAMATER" | "PARAMMETER" => some "parameters"
  | "COM" | "COMM" | "COMME" | "COMMEN" | "COMMUNTS" | "COMMENTS"
  | "COMMENT" | "COMMMENTS" | "MOORING" | "C" | "CO" | "COMMENTS\t" => some "comments"
  | "PRESS" | "PRESSURE" => some "max_pressure"
  | "WIRE" | "OUT" | "WHEEL" => some "wire"
  | "BOTTLES" | "BOTTLE" => some "bottles"
  | "BOTTOM" | "ALT" => some "height"
  | "LATITUDE" => some "lat"
  | "LONGITUDE" => some "lon"
  | "TYPE" => some "type"
  | "DATE" => some "date"
  | "TIME" => some "time"
  | "CODE" => some "event"
  | "NAV" => some "nav"
  | "DEPTH" => some "depth"
  | "CDEPTH" => some "corrected_depth"
  | _ => none

/-- Dict access INVERTED_POSSIBILITIES[s], raising KeyError when unknown. -/
def lookupInverted (s : String) : Except Err String :=
  match INVERTED_POSSIBILITIES s with
  | some c => .ok c
  | none => .error (.keyError s)

/-- simple_get: d.popleft(), returning None (here none) when the deque is
empty. The popped token is returned without stripping. -/
def simple_get : List String → Except Err (Option Value × List String)
  | [] => .ok (none, [])
  | x :: xs => .ok (some (.str x), xs)

/-- params_get: peek at d[0] without removing it; when every character is a
digit, comma, hyphen or space, popleft and return it, otherwise return None
without consuming. An empty deque returns None. -/
def params_get : List String → Except Err (Option Value × List String)
  | [] => .ok (none, [])
  | x :: xs =>
      if x.toList.all (fun c => ("1234567890,- ".toList).contains c) then
        .ok (some (.str x), xs)
      else .ok (none, x :: xs)

/-- comments_get: " ".join(d). The deque is read but not mutated, so every
token remains available to any decoder that runs after comments. -/
def comments_get (d : List String) : Except Err (Option Value × List String) :=
  .ok (some (.str (pyJoin d)), d)

/-- Hemisphere sign table hem of latlon_get; none models the KeyError
raised by hem[hemisphere] for an unrecognized letter. -/
def hemSign (h : String) : Option ℚ :=
  match h with
  | "N" => some 1
  | "E" => some 1
  | "S" => some (-1)
  | "W" => some (-1)
  | _ => none

/-- latlon_get: popleft three tokens (an exhausted deque raises IndexError),
strip each, uppercase the hemisphere, parse degree and minute as floats
(a ValueError there is caught and yields None with the three tokens already
consumed), then return (degree + minute/60) * hem[hemisphere]. The hem
lookup happens outside the try block, so an unrecognized hemisphere letter
raises a KeyError that escapes. -/
def latlon_get : List String → Except Err (Option Value × List String)
  | a :: b :: c :: rest =>
      let hemisphere := pyUpper (pyStrip c)
      match pyFloat (pyStrip a), pyFloat (pyStrip b) with
      | some degree, some minute =>
          match hemSign hemisphere with
          | some sign => .ok (some (.num ((degree + minute / 60) * sign)), rest)
          | none => .error (.keyError hemisphere)
      | _, _ => .ok (none, rest)
  | _ => .error .indexError

/-- GETTERS: the canonical-field-name to decoder registry; none models the
KeyError raised by GETTERS[header] for a name outside the registry. -/
def GETTERS (h : String) : Option (List String → Except Err (Option Value × List String)) :=
  match h with
  | "expocode" | "woce_sect" | "stnnbr" | "castno" | "type" | "date" | "time"
  | "event" | "nav" | "depth" | "corrected_depth" | "height" | "wire"
  | "bottles" | "max_pressure" => some simple_get
  | "lat" | "lon" => some latlon_get
  | "parameters" => some params_get
  | "comments" => some comments_get
  | _ => none

/-- calculate_slices: group a boolean mask (true = space) into runs and emit
one half-open (start, stop) range per run of false, in order. -/
def calculate_slices (l : List Bool) : List (Nat × Nat) :=
  let st := l.foldl
    (fun (st : Nat × Option Nat × List (Nat × Nat)) b =>
      match st, b with
      | (pos, none, acc), true => (pos + 1, none, acc)
      | (pos, none, acc), false => (pos + 1, some pos, acc)
      | (pos, some s, acc), true => (pos + 1, none, acc ++ [(s, pos)])
      | (pos, some s, acc), false => (pos + 1, some s, acc))
    (0, none, [])
  match st with
  | (pos, some s, acc) => acc ++ [(s, pos)]
  | (_, none, acc) => acc

/-- Pointwise conjunction of two masks; zip_longest with fillvalue True
makes a missing position on either side act as a space. -/
def zipLongestAnd : List Bool → List Bool → List Bool
  | [], b => b
  | a, [] => a
  | x :: xs, y :: ys => (x && y) :: zipLongestAnd xs ys

/-- Python list indexing lines[i] including negative-index wraparound;
indexError models the IndexError for an index out of range on both ends. -/
def pyIdx (l : List String) (i : Int) : Except Err String :=
  if 0 ≤ i then
    match l[i.toNat]? with
    | some x => .ok x
    | none => .error .indexError
  else
    let j : Int := (l.length : Int) + i
    if 0 ≤ j then
      match l[j.toNat]? with
      | some x => .ok x
      | none => .error .indexError
    else .error .indexError

/-- Python a > b on Optional ints: comparing with None raises TypeError. -/
def pyGt : Option Nat → Option Nat → Except Err Bool
  | some a, some b => .ok (decide (b < a))
  | _, _ => .error .typeError

/-- Python list.index restricted to the reachable case (element present);
returns the list length when absent, like List.indexOf. -/
def pyListIndex (x : String) : List String → Nat
  | [] => 0
  | y :: ys => if y == x then 0 else pyListIndex x ys + 1

/-- Duplicate-header resolution of read_sum: when the header labels are not
all distinct, accept only the pattern DEPTH twice and everything else once
(else raise a bare ValueError); then compare the preheader marker offsets
with Python > (TypeError when either is None) and, when the corrected
marker is further right, retag the last DEPTH to CDEPTH. The source tests
the same condition again in its elif, so that second branch is dead and is
kept here verbatim. -/
def resolveDup (headers : List String) (cor unc : Option Nat) :
    Except Err (List String) :=
  if headers.dedup.length == headers.length then .ok headers
  else if !(headers.all fun h =>
      if h == "DEPTH" then headers.count h == 2 else headers.count h == 1) then
    .error .valueError
  else
    match pyGt cor unc with
    | .error e => .error e
    | .ok gt =>
        if gt then
          let idx := pyListIndex "DEPTH" headers.reverse
          .ok (headers.set (headers.length - idx - 1) "CDEPTH")
        else if gt then
          .ok (headers.set (pyListIndex "DEPTH" headers) "CDEPTH")
        else .ok headers

/-- Python dict assignment row_data[k] = v: overwrite in place when the key
exists, else append, preserving insertion order. -/
def dictInsert (r : Row) (k : String) (v : Option Value) : Row :=
  if r.any (fun p => p.1 == k) then
    r.map (fun p => if p.1 == k then (k, v) else p)
  else r ++ [(k, v)]

/-- Keys of a row dict, in insertion order. -/
def rowKeys (r : Row) : List String :=
  r.map Prod.fst

/-- Decode loop body of read_sum for one row: walk the canonical header
names in order; a name in normalized_empty records None without consuming,
any other name dispatches through GETTERS on the shared token deque. -/
def decodeRowAux (em : List String) : List String → Row → List String → Except Err Row
  | [], row, _ => .ok row
  | h :: hs, row, q =>
      if em.contains h then decodeRowAux em hs (dictInsert row h none) q
      else
        match GETTERS h with
        | none => .error (.keyError h)
        | some g =>
            match g q with
            | .error e => .error e
            | .ok (v, q2) => decodeRowAux em hs (dictInsert row h v) q2

/-- Decode one tokenized body line into a row dict. -/
def decodeRow (hdrs em : List String) (tokens : List String) : Except Err Row :=
  decodeRowAux em hdrs [] tokens

/-- Run decodeRow over every body line in order, generator style: the rows
yielded before a row-level exception, together with that exception. -/
def decodeRows (hdrs em : List String) : List (List String) → List Row × Option Err
  | [] => ([], none)
  | line :: rest =>
      match decodeRow hdrs em line with
      | .ok r =>
          let p := decodeRows hdrs em rest
          (r :: p.1, p.2)
      | .error e => ([], some e)

/-- Structural phase of read_sum, in source order: ASCII decode, splitlines,
separator search (whose failure raises NameError, see Err.nameError),
preheader and header lookup by possibly negative index, marker search,
header slicing, empty-column normalization, duplicate resolution, header
normalization, and body tokenization from the joint space mask (reading
body[0] raises IndexError when the body is empty). Returns the canonical
header names, the normalized empty set, the body column slices and the
tokenized body. -/
def read_sum_setup (data : String) (empty_cols : List String) :
    Except Err (List String × List String × List (Nat × Nat) × List (List String)) := do
  if !(data.toList.all fun c => c.toNat < 128) then
    throw (Err.invalidSum "Sum files must be ASCII")
  let lines := pySplitlines data
  let some i := lines.findIdx? (fun l => "----------".toList.isPrefixOf (pyStrip l).toList)
    | throw Err.nameError
  let preheader ← pyIdx lines ((i : Int) - 2)
  let header ← pyIdx lines ((i : Int) - 1)
  let body := lines.drop (i + 1)
  let unc := strFind preheader "UNC"
  let cor :=
    match strFind preheader "COR" with
    | some n => some n
    | none => strFind preheader "XXX"
  let headerSlices := calculate_slices (header.toList.map (· == ' '))
  let headers := headerSlices.map fun p => strSlice header p.1 p.2
  let normalizedEmpty ← empty_cols.mapM lookupInverted
  let headers2 ← resolveDup headers cor unc
  let normalizedHeaders ← headers2.mapM lookupInverted
  let b0 ← match body with
    | [] => throw Err.indexError
    | b :: _ => pure b
  let spaceColumns := body.foldl
    (fun sc line => zipLongestAnd sc (line.toList.map (· == ' ')))
    (b0.toList.map (· == ' '))
  let columnSlices := calculate_slices spaceColumns
  let tokenizedBody := body.map fun line => columnSlices.map fun p => strSlice line p.1 p.2
  return (normalizedHeaders, normalizedEmpty, columnSlices, tokenizedBody)

/-- Observable outcome of a structurally successful read_sum run: the
canonical header names, the body column slices, the yielded rows, and the
row-level exception if one escaped a field decoder mid-sequence. -/
structure SumResult where
  headers : List String
  slices : List (Nat × Nat)
  rows : List Row
  rowError : Option Err
  deriving DecidableEq, Repr

/-- read_sum end to end: structural phase, then the per-line decode loop. -/
def readSumCore (data : String) (empty_cols : List String) :
    Except Err SumResult :=
  match read_sum_setup data empty_cols with
  | .error e => .error e
  | .ok (hdrs, em, slices, toks) =>
      let p := decodeRows hdrs em toks
      .ok ⟨hdrs, slices, p.1, p.2⟩

/-- read_sum as observed by a caller that drains the generator: the yielded
rows and the row-level exception, or the structural exception. -/
def read_sum (data : String) (empty_cols : List String) :
    Except Err (List Row × Option Err) :=
  match readSumCore data empty_cols with
  | .error e => .error e
  | .ok res => .ok (res.rows, res.rowError)

/-- C1 counterexample: the input has one canonical field name (expocode) but
its single body line "AB CD" induces two column slices; read_sum does not
fail with any column-count error — it yields a row, and the slice count
differs from the field-name count, refuting both halves of the claim. -/
theorem c1_counterexample :
    readSumCore "X\nEXPOCODE\n----------\nAB CD" [] =
      .ok ⟨["expocode"], [(0, 2), (3, 5)], [[("expocode", some (Value.str "AB"))]], none⟩ ∧
    ([(0, 2), (3, 5)] : List (Nat × Nat)).length ≠ (["expocode"] : List String).length := by
  exact ⟨by decide, by decide⟩

/-- C1 amended: read_sum performs no column-slice-count check at all. When
the body induces fewer slices than there are field names, rows are still
yielded with the exhausted scalar fields decoded to absence; when it
induces more slices than field names, rows are still yielded and the excess
tokens are simply never consumed. No ColumnCountMismatch error exists. -/
theorem c1_no_count_check :
    (readSumCore "X\nEXPOCODE CASTNO\n----------\nAB" [] =
      .ok ⟨["expocode", "castno"], [(0, 2)],
        [[("expocode", some (Value.str "AB")), ("castno", none)]], none⟩ ∧
      ([(0, 2)] : List (Nat × Nat)).length ≠
        (["expocode", "castno"] : List String).length) ∧
    (readSumCore "X\nSTNNBR\n----------\n11 22 33" [] =
      .ok ⟨["stnnbr"], [(0, 2), (3, 5), (6, 8)],
        [[("stnnbr", some (Value.str "11"))]], none⟩ ∧
      ([(0, 2), (3, 5), (6, 8)] : List (Nat × Nat)).length ≠
        (["stnnbr"] : List String).length) := by
  exact ⟨⟨by decide, by decide⟩, ⟨by decide, by decide⟩⟩

/-- C2 counterexample: in the body line "12 30.0 X" the hemisphere letter X
is unrecognized; the hem table lookup sits outside the try block of
latlon_get, so a KeyError escapes the row sequence and no complete row is
produced, refuting the never-escapes claim. -/
theorem c2_counterexample :
    read_sum "X\nLATITUDE\n----------\n12 30.0 X" [] =
      .ok ([], some (.keyError "X")) := by
  decide

/-- C3 counterexample: a valid header with a separator as the final line
(empty body) makes read_sum raise IndexError while reading body[0] for the
joint space mask, instead of yielding an empty row sequence. -/
theorem c3_counterexample :
    read_sum "X\nEXPOCODE\n----------" [] = .error .indexError := by
  decide

/-- C3 amended: an input with a valid header and separator whose body is
empty does not yield an empty row sequence; it fails with IndexError
because the tokenizer unconditionally reads the first body line, whatever
the layout and whether or not the input ends with a newline. -/
theorem c3_empty_body_indexerror :
    read_sum "X\nSTNNBR CASTNO\n----------" [] = .error .indexError ∧
    read_sum "X\nEXPOCODE\n----------\n" [] = .error .indexError := by
  exact ⟨by decide, by decide⟩

/-- C4 counterexample: header row with DEPTH exactly twice and a preheader
containing none of UNC, COR, XXX: both marker offsets are None, the Python
comparison None greater-than None raises TypeError, so the failure is not
the AmbiguousLayout ValueError of the duplication check. -/
theorem c4_counterexample :
    read_sum "ZZZ\nDEPTH DEPTH\n----------" [] = .error .typeError ∧
    Err.typeError ≠ Err.valueError := by
  exact ⟨by decide, by decide⟩

/-- C4 amended: with DEPTH exactly twice and the corrected marker at a
greater preheader offset than UNC, the last DEPTH occurrence is retagged to
corrected_depth and the other stays depth; any other duplication pattern
(another duplicated name, or DEPTH three times) fails with the bare
ValueError of the duplication check; but a depth duplication whose markers
cannot be ordered (a marker missing from the preheader) raises TypeError,
not that ValueError; and when both markers are present with the corrected
offset not greater, no branch fires and both columns silently stay depth
(the dict then holds a single depth key, written twice). -/
theorem c4_depth_resolution :
    (readSumCore "A UNC B COR\nDEPTH DEPTH\n----------\n10 20" [] =
      .ok ⟨["depth", "corrected_depth"], [(0, 2), (3, 5)],
        [[("depth", some (Value.str "10")),
          ("corrected_depth", some (Value.str "20"))]], none⟩) ∧
    (read_sum "X\nEXPOCODE EXPOCODE\n----------" [] = .error .valueError) ∧
    (read_sum "X\nDEPTH DEPTH DEPTH\n----------" [] = .error .valueError) ∧
    (read_sum "NOMARKS\nDEPTH DEPTH\n----------" [] = .error .typeError) ∧
    (readSumCore "A COR B UNC\nDEPTH DEPTH\n----------\n10 20" [] =
      .ok ⟨["depth", "depth"], [(0, 2), (3, 5)],
        [[("depth", some (Value.str "20"))]], none⟩) := by
  exact ⟨by decide, by decide, by decide, by decide, by decide⟩

/-- C5 counterexample: the separator is the very first line (index 0), so
the preheader line i-2 does not exist, yet read_sum does not fail with
InvalidSumError: Python negative indexing wraps to the end of the file, the
last line EXPOCODE doubles as the header, and a row is produced. -/
theorem c5_counterexample :
    (pySplitlines "----------\nEXPOCODE").findIdx?
        (fun l => "----------".toList.isPrefixOf (pyStrip l).toList) = some 0 ∧
    read_sum "----------\nEXPOCODE" [] =
      .ok ([[("expocode", some (Value.str "EXPOCODE"))]], none) := by
  exact ⟨by decide, by decide⟩

/-- C5 amended: with the separator at line 0 or 1 read_sum never raises
InvalidSumError; the preheader and header indices wrap around to lines at
the end of the file (failing with IndexError only when the file is shorter
than two lines), after which processing continues normally: it can fail
with KeyError on whatever line ends up as the header, or even succeed and
yield rows. -/
theorem c5_negative_indexing :
    (read_sum "HELLO\n----------\nWORLD" [] = .error (.keyError "HELLO")) ∧
    (read_sum "----------" [] = .error .indexError) ∧
    (read_sum "----------\nSTNNBR" [] =
      .ok ([[("stnnbr", some (Value.str "STNNBR"))]], none)) := by
  exact ⟨by decide, by decide, by decide⟩

/-- C6: for ASCII input with no line whose stripped form starts with ten
dashes, read_sum fails before producing rows, as the claim intends, but
with NameError instead of InvalidSumError: the statement
raise InvalidSumError("No header seperation line found") from e
references the name e, which is unbound because the except handler that
binds it did not run, so evaluating the raise statement itself raises
NameError. The claimed error type is the evident intent; the from clause
is the slip. -/
theorem c6_no_separator_nameerror :
    read_sum "hello\nworld" [] = .error .nameError ∧
    read_sum "-----\nnot enough dashes" [] = .error .nameError := by
  exact ⟨by decide, by decide⟩

/-- C2 amended: degree or minute float-parse failure resolves to absence
for the field with the three tokens consumed, and disallowed parameter text
resolves to absence without consuming, with processing of later fields and
rows continuing (the concrete run decodes two rows whose lat is absent);
however, an unrecognized hemisphere letter reached after both floats parse
raises a KeyError that escapes the row sequence, so not every per-row
decode anomaly is contained. -/
theorem c2_anomaly_scope :
    (∀ (a b c : String) (rest : List String),
        pyFloat (pyStrip a) = none →
        latlon_get (a :: b :: c :: rest) = .ok (none, rest)) ∧
    (∀ (x : String) (xs : List String),
        (x.toList.all fun ch => ("1234567890,- ".toList).contains ch) = false →
        params_get (x :: xs) = .ok (none, x :: xs)) ∧
    (readSumCore "X\nLATITUDE STNNBR\n----------\nAA 30.0 N 007\nXX YY.Z Q 008" [] =
      .ok ⟨["lat", "stnnbr"], [(0, 2), (3, 7), (8, 9), (10, 13)],
        [[("lat", none), ("stnnbr", some (Value.str "007"))],
         [("lat", none), ("stnnbr", some (Value.str "008"))]], none⟩) ∧
    (∀ (a b c : String) (rest : List String) (degree minute : ℚ),
        pyFloat (pyStrip a) = some degree →
        pyFloat (pyStrip b) = some minute →
        hemSign (pyUpper (pyStrip c)) = none →
        latlon_get (a :: b :: c :: rest) = .error (.keyError (pyUpper (pyStrip c)))) := by
  refine ⟨?_, ?_, by decide, ?_⟩
  · intro a b c rest h
    cases hb : pyFloat (pyStrip b) <;> simp [latlon_get, h, hb]
  · intro x xs h
    simp only [params_get, h]
    rfl
  · intro a b c rest degree minute ha hb hc
    simp [latlon_get, ha, hb, hc]

/-- C2 witness: the general degree-parse-failure clause of c2_anomaly_scope
applied to the concrete queue with degree token zz. -/
theorem c2_witness :
    latlon_get ["zz", "1", "N", "k"] = .ok (none, ["k"]) :=
  c2_anomaly_scope.1 "zz" "1" "N" ["k"] rfl

/-- C7: latlon_get pops exactly three tokens; when degree and minute parse
as floats and the stripped, uppercased hemisphere letter is N or E (sign 1)
or S or W (sign -1), the result is sign times (degree + minute/60); the two
worked examples give -12.5 and +12.0; and a float-parse failure on degree
or minute yields absence with the same three tokens consumed. -/
theorem c7_latlon_decoder :
    (∀ (a b c : String) (rest : List String) (degree minute sign : ℚ),
        pyFloat (pyStrip a) = some degree →
        pyFloat (pyStrip b) = some minute →
        hemSign (pyUpper (pyStrip c)) = some sign →
        latlon_get (a :: b :: c :: rest) =
          .ok (some (.num ((degree + minute / 60) * sign)), rest)) ∧
    (hemSign "N" = some 1 ∧ hemSign "E" = some 1 ∧
      hemSign "S" = some (-1) ∧ hemSign "W" = some (-1)) ∧
    (latlon_get ["12", "30.0", "S"] = .ok (some (.num (-(25 / 2 : ℚ))), [])) ∧
    (latlon_get ["12", "0", "n"] = .ok (some (.num (12 : ℚ)), [])) ∧
    (∀ (a b c : String) (rest : List String),
        pyFloat (pyStrip a) = none →
        latlon_get (a :: b :: c :: rest) = .ok (none, rest)) ∧
    (∀ (a b c : String) (rest : List String),
        pyFloat (pyStrip b) = none →
        latlon_get (a :: b :: c :: rest) = .ok (none, rest)) := by
  refine ⟨?_, ⟨by decide, by decide, by decide, by decide⟩, ?_, ?_, ?_, ?_⟩
  · intro a b c rest degree minute sign ha hb hc
    simp [latlon_get, ha, hb, hc]
  · calc latlon_get ["12", "30.0", "S"]
        = .ok (some (.num (((12 : ℚ) + (30 + 0 / 10 ^ 1) / 60) * (-1))), []) := by rfl
      _ = .ok (some (.num (-(25 / 2 : ℚ))), []) := by norm_num
  · calc latlon_get ["12", "0", "n"]
        = .ok (some (.num (((12 : ℚ) + 0 / 60) * 1)), []) := by rfl
      _ = .ok (some (.num (12 : ℚ)), []) := by norm_num
  · intro a b c rest h
    cases hb : pyFloat (pyStrip b) <;> simp [latlon_get, h, hb]
  · intro a b c rest h
    cases ha : pyFloat (pyStrip a) <;> simp [latlon_get, ha, h]

/-- C7 witness: the general success clause of c7_latlon_decoder applied to
the concrete queue 7, 30.0, w with a trailing token left unpopped. -/
theorem c7_witness :
    latlon_get ["7", "30.0", "w", "Z"] =
      .ok (some (.num (((7 : ℚ) + (30 + 0 / 10 ^ 1) / 60) * (-1))), ["Z"]) :=
  c7_latlon_decoder.1 "7" "30.0" "w" ["Z"] 7 ((30 : ℚ) + 0 / 10 ^ 1) (-1) rfl rfl rfl

/-- C8: params_get peeks at the next token without popping; a token made
only of digits, commas, hyphens and spaces is popped and returned, any
other token is left on the queue and absence is returned; 12,-3 is
accepted, A1 is rejected without consumption, and in a layout where
comments follows parameters the rejected token is then read by the
comments decoder. -/
theorem c8_params_decoder :
    (params_get [] = .ok (none, [])) ∧
    (∀ (x : String) (xs : List String),
        (x.toList.all fun ch => ("1234567890,- ".toList).contains ch) = true →
        params_get (x :: xs) = .ok (some (.str x), xs)) ∧
    (∀ (x : String) (xs : List String),
        (x.toList.all fun ch => ("1234567890,- ".toList).contains ch) = false →
        params_get (x :: xs) = .ok (none, x :: xs)) ∧
    (params_get ["12,-3"] = .ok (some (.str "12,-3"), [])) ∧
    (params_get ["A1", "tail"] = .ok (none, ["A1", "tail"])) ∧
    (decodeRow ["parameters", "comments"] [] ["A1"] =
      .ok [("parameters", none), ("comments", some (.str "A1"))]) := by
  refine ⟨by decide, ?_, ?_, by decide, by decide, by decide⟩
  · intro x xs h
    simp only [params_get, h]
    rfl
  · intro x xs h
    simp only [params_get, h]
    rfl

/-- C8 witness: the general acceptance clause of c8_params_decoder applied
to a token containing a digit, a hyphen and a space. -/
theorem c8_witness :
    params_get ["4- 2", "z"] = .ok (some (Value.str "4- 2"), ["z"]) :=
  c8_params_decoder.2.1 "4- 2" ["z"] (by decide)

/-- C10: comments_get returns the single-space join of the whole remaining
queue but does not remove anything from it, so in a layout where comments
is not last the tokens at the comments position are both part of the
comments string and consumed again by the decoders that follow: with
header COMMENTS EXPOCODE and body tokens AB CD, the row has comments
"AB CD" and expocode "AB". -/
theorem c10_comments_no_consume :
    (∀ d : List String, comments_get d = .ok (some (.str (pyJoin d)), d)) ∧
    read_sum "X\nCOMMENTS EXPOCODE\n----------\nAB CD" [] =
      .ok ([[("comments", some (Value.str "AB CD")),
            ("expocode", some (Value.str "AB"))]], none) := by
  exact ⟨fun d => rfl, by decide⟩

/-- Replacing the value stored under an existing key leaves the key list of
a row dict unchanged. -/
lemma rowKeys_replace (r : Row) (k : String) (v : Option Value) :
    rowKeys (r.map (fun p => if p.1 == k then (k, v) else p)) = rowKeys r := by
  induction r with
  | nil => rfl
  | cons p r ih =>
      have h1 : (if p.1 == k then (k, v) else p).1 = p.1 := by
        by_cases h : p.1 == k
        · have hk : p.1 = k := by simpa using h
          rw [if_pos h, hk]
        · rw [if_neg h]
      show (if p.1 == k then (k, v) else p).1 ::
          rowKeys (r.map (fun p => if p.1 == k then (k, v) else p)) = p.1 :: rowKeys r
      rw [h1, ih]

/-- Membership in the key list after a dict write: the written key is added
when new and nothing else changes. -/
lemma mem_rowKeys_dictInsert (r : Row) (k : String) (v : Option Value) (x : String) :
    x ∈ rowKeys (dictInsert r k v) ↔ x ∈ rowKeys r ∨ x = k := by
  unfold dictInsert
  by_cases h : r.any (fun p => p.1 == k)
  · rw [if_pos h, rowKeys_replace]
    constructor
    · exact Or.inl
    · rintro (hx | rfl)
      · exact hx
      · rcases List.any_eq_true.mp h with ⟨p, hp, hpk⟩
        have hpx : p.1 = x := by simpa using hpk
        exact hpx ▸ List.mem_map_of_mem Prod.fst hp
  · rw [if_neg h]
    unfold rowKeys
    simp

/-- Walking the decode loop over a header list only ever adds those header
names as keys: on success the final key set is the accumulated keys plus
the processed header names. -/
lemma decodeRowAux_keys (em : List String) :
    ∀ (hs : List String) (row : Row) (q : List String) (r : Row),
      decodeRowAux em hs row q = .ok r →
      ∀ x, x ∈ rowKeys r ↔ x ∈ rowKeys row ∨ x ∈ hs := by
  intro hs
  induction hs with
  | nil =>
      intro row q r h x
      unfold decodeRowAux at h
      cases h
      simp
  | cons hd tl ih =>
      intro row q r h x
      unfold decodeRowAux at h
      by_cases hc : em.contains hd
      · rw [if_pos hc] at h
        have := ih (dictInsert row hd none) q r h x
        rw [this, mem_rowKeys_dictInsert]
        simp [List.mem_cons]
        tauto
      · rw [if_neg hc] at h
        revert h
        cases GETTERS hd with
        | none => intro h; cases h
        | some g =>
            cases hgq : g q with
            | error e => simp only [hgq]; intro h; cases h
            | ok p =>
                simp only [hgq]
                intro h
                have := ih (dictInsert row hd p.1) p.2 r h x
                rw [this, mem_rowKeys_dictInsert]
                simp [List.mem_cons]
                tauto

/-- Every row in the generator output of the decode loop has exactly the
canonical header names as its key set. -/
lemma decodeRows_keys (hdrs em : List String) :
    ∀ (toks : List (List String)) (r : Row),
      r ∈ (decodeRows hdrs em toks).1 →
      ∀ x, x ∈ rowKeys r ↔ x ∈ hdrs := by
  intro toks
  induction toks with
  | nil =>
      intro r hr
      simp [decodeRows] at hr
  | cons line rest ih =>
      intro r hr x
      unfold decodeRows at hr
      cases hd : decodeRow hdrs em line with
      | error e => rw [hd] at hr; simp at hr
      | ok row =>
          rw [hd] at hr
          simp at hr
          rcases hr with rfl | hr
          · have := decodeRowAux_keys em hdrs [] line r hd x
            simpa [rowKeys] using this
          · exact ih r hr x

/-- C9: whenever read_sum reaches the row loop, every yielded row, whatever
its content, has a key set equal to the set of canonical field names of the
resolved layout. -/
theorem c9_row_keys (data : String) (empty_cols : List String) (res : SumResult)
    (h : readSumCore data empty_cols = .ok res)
    (r : Row) (hr : r ∈ res.rows) (x : String) :
    x ∈ rowKeys r ↔ x ∈ res.headers := by
  unfold readSumCore at h
  cases hs : read_sum_setup data empty_cols with
  | error e =>
      rw [hs] at h
      cases h
  | ok v =>
      obtain ⟨hdrs, em, slices, toks⟩ := v
      rw [hs] at h
      cases h
      exact decodeRows_keys hdrs em toks r hr x

/-- C9 witness: c9_row_keys applied to a concrete two-field run whose
single row carries one decoded value and one absent value. -/
theorem c9_witness :
    ("castno" ∈ rowKeys [("expocode", some (Value.str "AB")), ("castno", none)] ↔
      "castno" ∈ ["expocode", "castno"]) :=
  c9_row_keys "X\nEXPOCODE CASTNO\n----------\nAB" []
    ⟨["expocode", "castno"], [(0, 2)],
      [[("expocode", some (Value.str "AB")), ("castno", none)]], none⟩
    (by decide)
    [("expocode", some (Value.str "AB")), ("castno", none)] (by decide) "castno"

end SumRead
